import Mathlib

/-!
Shallow embedding of the `gharial` crate (files `src/alloc.rs` and
`src/boxed.rs`): a tracking allocator `TestAlloc` wrapping an inner
`GlobalAlloc`, the probabilistic-failure wrapper `MaybeAlloc`, and the
owning pointer `TestBox`.

Modelling conventions:
- A raw pointer `*mut u8` is an opaque address `Ptr := Nat`; the null
  pointer is `0`.
- A `core::alloc::Layout` is a size/alignment pair.
- The `HashMap<*mut u8, Layout>` guarding the in-flight allocations is an
  association list with the `HashMap` operational semantics (`insert`
  replaces an existing binding and returns the previous value, `remove`
  returns the removed value).
- The wrapped (inner) allocator is nondeterministic, so its reply to each
  `alloc` call is an explicit input of the model (`0` = allocation
  failure); its `dealloc` has no observable effect on the tracker, so the
  model only records whether and with which arguments it was invoked.
- A Rust `assert!`/`unwrap` failure is a recorded `asserted` flag; the
  state carried alongside it is the state at the moment the panic fires.
-/

/-- A `core::alloc::Layout`: size and alignment of a memory request. -/
structure Layout where
  size : Nat
  align : Nat
deriving DecidableEq, Repr

/-- A raw address (`*mut u8` used purely as a map key); `0` is null. -/
abbrev Ptr := Nat

/-- The `HashMap<*mut u8, Layout>` of in-flight allocations. -/
abbrev TrackState := List (Ptr × Layout)

/-- `HashMap::get`: first binding of the key, if any. -/
def hmLookup : TrackState → Ptr → Option Layout
  | [], _ => none
  | (k, v) :: t, p => if k = p then some v else hmLookup t p

/-- `HashMap::insert`: replace the binding of `p` (or append it) and
return the previous value together with the new map. -/
def hmInsert : TrackState → Ptr → Layout → Option Layout × TrackState
  | [], p, l => (none, [(p, l)])
  | (k, v) :: t, p, l =>
      if k = p then (some v, (p, l) :: t)
      else
        let r := hmInsert t p l
        (r.1, (k, v) :: r.2)

/-- `HashMap::remove`: drop the binding of `p` (if any) and return the
removed value together with the new map. -/
def hmRemove : TrackState → Ptr → Option Layout × TrackState
  | [], _ => (none, [])
  | (k, v) :: t, p =>
      if k = p then (some v, t)
      else
        let r := hmRemove t p
        (r.1, (k, v) :: r.2)

/-- Result of `TestAlloc::alloc`: the tracking map after the call, whether
an assertion fired, and the returned pointer. -/
structure AllocOut where
  st : TrackState
  asserted : Bool
  ret : Ptr
deriving DecidableEq, Repr

/-- Result of `TestAlloc::dealloc`: the tracking map at the end (or at the
panic), whether an assertion fired, and the arguments of the delegated
call to the wrapped allocator, when it happened. -/
structure DeallocOut where
  st : TrackState
  asserted : Bool
  innerCall : Option (Ptr × Layout)
deriving DecidableEq, Repr

/-- `TestAlloc::alloc` (src/alloc.rs lines 148-157): delegate to the inner
allocator (its reply is the input `innerPtr`); on a non-null result insert
a record and assert no previous record existed; return the pointer. -/
def TestAlloc.alloc (st : TrackState) (layout : Layout) (innerPtr : Ptr) : AllocOut :=
  if innerPtr ≠ 0 then
    let r := hmInsert st innerPtr layout
    { st := r.2, asserted := r.1.isSome, ret := innerPtr }
  else
    { st := st, asserted := false, ret := innerPtr }

/-- `TestAlloc::dealloc` (src/alloc.rs lines 159-171): assert the pointer
is non-null, remove its record (`unwrap` asserts one exists), assert the
recorded layout equals the argument, then delegate to the inner
allocator. -/
def TestAlloc.dealloc (st : TrackState) (p : Ptr) (layout : Layout) : DeallocOut :=
  if p = 0 then
    { st := st, asserted := true, innerCall := none }
  else
    let r := hmRemove st p
    match r.1 with
    | none => { st := r.2, asserted := true, innerCall := none }
    | some prev =>
        if layout = prev then
          { st := r.2, asserted := false, innerCall := some (p, layout) }
        else
          { st := r.2, asserted := true, innerCall := none }

/-- Result of `Drop for TestAlloc`: whether the empty-map check ran and
whether its assertion fired. -/
structure DropOut where
  checked : Bool
  asserted : Bool
deriving DecidableEq, Repr

/-- `Drop for TestAlloc` (src/alloc.rs lines 132-142): when the strong
count of the shared tracking state is `1`, assert the map is empty. -/
def TestAlloc.dropRun (strongCount : Nat) (st : TrackState) : DropOut :=
  if strongCount = 1 then
    { checked := true, asserted := !(st.isEmpty) }
  else
    { checked := false, asserted := false }

/-- One call through the tracking allocator: an `alloc` with the requested
layout and the inner allocator's reply, or a `dealloc`. -/
inductive Event where
  | alloc (layout : Layout) (innerPtr : Ptr)
  | dealloc (p : Ptr) (layout : Layout)
deriving DecidableEq, Repr

/-- Run a sequence of calls; `none` as soon as any assertion fires. -/
def runTrace (st : TrackState) : List Event → Option TrackState
  | [] => some st
  | Event.alloc l ip :: es =>
      let out := TestAlloc.alloc st l ip
      if out.asserted then none else runTrace out.st es
  | Event.dealloc p l :: es =>
      let out := TestAlloc.dealloc st p l
      if out.asserted then none else runTrace out.st es

/-- The tracking map after a sequence of calls, panics ignored. -/
def finalSt (st : TrackState) : List Event → TrackState
  | [] => st
  | Event.alloc l ip :: es => finalSt (TestAlloc.alloc st l ip).st es
  | Event.dealloc p l :: es => finalSt (TestAlloc.dealloc st p l).st es

/-- Trace validity: every `dealloc` uses the address and layout of a
record currently in the map (a prior successful `alloc` not yet
deallocated), and the wrapped allocator honours its contract by replying
with null or an address not currently live. -/
def validFrom (st : TrackState) : List Event → Bool
  | [] => true
  | Event.alloc l ip :: es =>
      (ip = 0 || (hmLookup st ip).isNone) && validFrom (TestAlloc.alloc st l ip).st es
  | Event.dealloc p l :: es =>
      (hmLookup st p = some l) && validFrom (TestAlloc.dealloc st p l).st es

/-- Number of successful allocations (non-null inner reply) in a trace. -/
def succAllocCount : List Event → Nat
  | [] => 0
  | Event.alloc _ ip :: es => (if ip ≠ 0 then 1 else 0) + succAllocCount es
  | Event.dealloc _ _ :: es => succAllocCount es

/-- Number of deallocation calls in a trace. -/
def deallocCount : List Event → Nat
  | [] => 0
  | Event.alloc _ _ :: es => deallocCount es
  | Event.dealloc _ _ :: es => 1 + deallocCount es

theorem hmInsert_fst : ∀ (st : TrackState) (p : Ptr) (l : Layout),
    (hmInsert st p l).1 = hmLookup st p
  | [], _, _ => rfl
  | (k, v) :: t, p, l => by
      by_cases h : k = p
      · simp [hmInsert, hmLookup, h]
      · simp [hmInsert, hmLookup, h, hmInsert_fst t p l]

theorem hmRemove_fst : ∀ (st : TrackState) (p : Ptr),
    (hmRemove st p).1 = hmLookup st p
  | [], _ => rfl
  | (k, v) :: t, p => by
      by_cases h : k = p
      · simp [hmRemove, hmLookup, h]
      · simp [hmRemove, hmLookup, h, hmRemove_fst t p]

theorem hmLookup_hmInsert_self : ∀ (st : TrackState) (p : Ptr) (l : Layout),
    hmLookup (hmInsert st p l).2 p = some l
  | [], p, l => by simp [hmInsert, hmLookup]
  | (k, v) :: t, p, l => by
      by_cases h : k = p
      · simp [hmInsert, hmLookup, h]
      · simp [hmInsert, hmLookup, h, hmLookup_hmInsert_self t p l]


theorem hmLookup_hmInsert_ne : ∀ (st : TrackState) (p q : Ptr) (l : Layout), q ≠ p →
    hmLookup (hmInsert st p l).2 q = hmLookup st q
  | [], p, q, l, hq => by
      have hpq : ¬p = q := fun e => hq e.symm
      simp [hmInsert, hmLookup, hpq]
  | (k, v) :: t, p, q, l, hq => by
      have hpq : ¬p = q := fun e => hq e.symm
      by_cases h : k = p
      · subst h
        simp [hmInsert, hmLookup, hpq]
      · simp [hmInsert, hmLookup, h, hmLookup_hmInsert_ne t p q l hq]

theorem hmLookup_hmRemove_ne : ∀ (st : TrackState) (p q : Ptr), q ≠ p →
    hmLookup (hmRemove st p).2 q = hmLookup st q
  | [], _, _, _ => rfl
  | (k, v) :: t, p, q, hq => by
      have hpq : ¬p = q := fun e => hq e.symm
      by_cases h : k = p
      · subst h
        simp [hmRemove, hmLookup, hpq]
      · simp [hmRemove, hmLookup, h, hmLookup_hmRemove_ne t p q hq]

theorem hmInsert_length : ∀ (st : TrackState) (p : Ptr) (l : Layout),
    hmLookup st p = none → (hmInsert st p l).2.length = st.length + 1
  | [], _, _, _ => rfl
  | (k, v) :: t, p, l, h => by
      by_cases hk : k = p
      · simp [hmLookup, hk] at h
      · simp only [hmLookup, if_neg hk] at h
        simp [hmInsert, hk, hmInsert_length t p l h]

theorem hmRemove_length : ∀ (st : TrackState) (p : Ptr) (l : Layout),
    hmLookup st p = some l → (hmRemove st p).2.length + 1 = st.length
  | [], _, _, h => by simp [hmLookup] at h
  | (k, v) :: t, p, l, h => by
      by_cases hk : k = p
      · simp [hmRemove, hk]
      · simp only [hmLookup, if_neg hk] at h
        simp [hmRemove, hk, hmRemove_length t p l h]

theorem hmRemove_hmInsert : ∀ (st : TrackState) (p : Ptr) (l : Layout),
    hmLookup st p = none → hmRemove (hmInsert st p l).2 p = (some l, st)
  | [], p, l, _ => by simp [hmInsert, hmRemove]
  | (k, v) :: t, p, l, h => by
      by_cases hk : k = p
      · simp [hmLookup, hk] at h
      · simp only [hmLookup, if_neg hk] at h
        simp [hmInsert, hmRemove, hk, hmRemove_hmInsert t p l h]

theorem runTrace_of_valid : ∀ (es : List Event) (st : TrackState),
    validFrom st es = true → hmLookup st 0 = none →
    runTrace st es = some (finalSt st es)
  | [], _, _, _ => rfl
  | Event.alloc l ip :: es, st, hv, h0 => by
      simp only [validFrom, Bool.and_eq_true, Bool.or_eq_true, decide_eq_true_eq,
        Option.isNone_iff_eq_none] at hv
      by_cases hip : ip = 0
      · subst hip
        simpa [runTrace, finalSt, TestAlloc.alloc] using
          runTrace_of_valid es st (by simpa [TestAlloc.alloc] using hv.2) h0
      · have hfresh : hmLookup st ip = none := by
          rcases hv.1 with h | h
          · exact absurd h hip
          · exact h
        have hprev : (hmInsert st ip l).1 = none := by
          rw [hmInsert_fst]
          exact hfresh
        have h0' : hmLookup (hmInsert st ip l).2 0 = none := by
          rw [hmLookup_hmInsert_ne st ip 0 l (fun e => hip e.symm)]
          exact h0
        simpa [runTrace, finalSt, TestAlloc.alloc, hip, hprev] using
          runTrace_of_valid es (TestAlloc.alloc st l ip).st
            (hv.2) (by simpa [TestAlloc.alloc, hip] using h0')
  | Event.dealloc p l :: es, st, hv, h0 => by
      simp only [validFrom, Bool.and_eq_true, decide_eq_true_eq] at hv
      have hp : p ≠ 0 := by
        intro e
        rw [e, h0] at hv
        exact Option.noConfusion hv.1
      have hrem : (hmRemove st p).1 = some l := by
        rw [hmRemove_fst]
        exact hv.1
      have h0' : hmLookup (hmRemove st p).2 0 = none := by
        rw [hmLookup_hmRemove_ne st p 0 (fun e => hp e.symm)]
        exact h0
      simpa [runTrace, finalSt, TestAlloc.dealloc, hp, hrem] using
        runTrace_of_valid es (TestAlloc.dealloc st p l).st
          (hv.2) (by simpa [TestAlloc.dealloc, hp, hrem] using h0')

theorem finalSt_length : ∀ (es : List Event) (st : TrackState),
    validFrom st es = true → hmLookup st 0 = none →
    (finalSt st es).length + deallocCount es = st.length + succAllocCount es
  | [], _, _, _ => by simp [finalSt, deallocCount, succAllocCount]
  | Event.alloc l ip :: es, st, hv, h0 => by
      simp only [validFrom, Bool.and_eq_true, Bool.or_eq_true, decide_eq_true_eq,
        Option.isNone_iff_eq_none] at hv
      by_cases hip : ip = 0
      · subst hip
        have ih := finalSt_length es st (by simpa [TestAlloc.alloc] using hv.2) h0
        simpa [finalSt, deallocCount, succAllocCount, TestAlloc.alloc] using ih
      · have hfresh : hmLookup st ip = none := by
          rcases hv.1 with h | h
          · exact absurd h hip
          · exact h
        have h0' : hmLookup (hmInsert st ip l).2 0 = none := by
          rw [hmLookup_hmInsert_ne st ip 0 l (fun e => hip e.symm)]
          exact h0
        have ih := finalSt_length es (TestAlloc.alloc st l ip).st
          (hv.2) (by simpa [TestAlloc.alloc, hip] using h0')
        have hlen : (TestAlloc.alloc st l ip).st.length = st.length + 1 := by
          simpa [TestAlloc.alloc, hip] using hmInsert_length st ip l hfresh
        simp only [finalSt, deallocCount, succAllocCount, if_pos hip] at ih ⊢
        omega
  | Event.dealloc p l :: es, st, hv, h0 => by
      simp only [validFrom, Bool.and_eq_true, decide_eq_true_eq] at hv
      have hp : p ≠ 0 := by
        intro e
        rw [e, h0] at hv
        exact Option.noConfusion hv.1
      have hrem : (hmRemove st p).1 = some l := by
        rw [hmRemove_fst]
        exact hv.1
      have hstep : (TestAlloc.dealloc st p l).st = (hmRemove st p).2 := by
        simp [TestAlloc.dealloc, hp, hrem]
      have h0' : hmLookup (hmRemove st p).2 0 = none := by
        rw [hmLookup_hmRemove_ne st p 0 (fun e => hp e.symm)]
        exact h0
      have ih := finalSt_length es (TestAlloc.dealloc st p l).st
        (hv.2) (by rw [hstep]; exact h0')
      have hlen := hmRemove_length st p l hv.1
      rw [hstep] at ih
      simp only [finalSt, deallocCount, succAllocCount]
      rw [hstep]
      omega

/-- Claim C1: for every finite sequence of alloc/dealloc calls through a
freshly constructed `TestAlloc` (empty tracking state), in which every
dealloc uses the address and layout of a prior successful alloc not yet
deallocated (and the wrapped allocator honours its contract, replying with
null or a non-live address), and every successfully allocated address is
deallocated before the drop (the final ledger is empty), no assertion
fires in any alloc call, any dealloc call, or in the drop of the allocator
or of any of its clones (any strong count). -/
theorem testAlloc_valid_complete_trace_no_assert (es : List Event)
    (hv : validFrom [] es = true) (hall : finalSt [] es = []) :
    runTrace [] es = some [] ∧
    ∀ c : Nat, (TestAlloc.dropRun c (finalSt [] es)).asserted = false := by
  constructor
  · rw [runTrace_of_valid es [] hv rfl, hall]
  · intro c
    rw [hall]
    by_cases hc : c = 1 <;> simp [TestAlloc.dropRun, hc]

/-- Witness for C1: a concrete valid and complete two-call trace. -/
theorem testAlloc_valid_complete_trace_no_assert_witness :
    runTrace [] [Event.alloc (Layout.mk 4 4) 100, Event.dealloc 100 (Layout.mk 4 4)] = some [] ∧
    (TestAlloc.dropRun 1
      (finalSt [] [Event.alloc (Layout.mk 4 4) 100, Event.dealloc 100 (Layout.mk 4 4)])).asserted
      = false :=
  ⟨(testAlloc_valid_complete_trace_no_assert _ (by decide) (by decide)).1,
   (testAlloc_valid_complete_trace_no_assert _ (by decide) (by decide)).2 1⟩

/-- Claim C2: the empty-mapping check in `Drop for TestAlloc` runs exactly
when the dropped clone is the sole reference (strong count 1); dropping a
clone while another is alive performs no check and cannot assert; and for
any valid trace from a fresh allocator, the last-drop assertion fires iff
at least one successful allocation was never matched by a dealloc. -/
theorem testAlloc_drop_last_clone_check (c : Nat) (es : List Event)
    (hv : validFrom [] es = true) :
    ((TestAlloc.dropRun c (finalSt [] es)).checked = true ↔ c = 1) ∧
    (c ≠ 1 → TestAlloc.dropRun c (finalSt [] es) = ⟨false, false⟩) ∧
    ((TestAlloc.dropRun 1 (finalSt [] es)).asserted = true ↔
      deallocCount es < succAllocCount es) := by
  have hlen := finalSt_length es [] hv rfl
  simp only [List.length_nil, Nat.zero_add] at hlen
  refine ⟨?_, ?_, ?_⟩
  · by_cases hc : c = 1 <;> simp [TestAlloc.dropRun, hc]
  · intro hc
    simp [TestAlloc.dropRun, hc]
  · cases hfin : finalSt [] es with
    | nil =>
        rw [hfin] at hlen
        simp only [List.length_nil] at hlen
        simp [TestAlloc.dropRun]
        omega
    | cons hd tl =>
        rw [hfin] at hlen
        simp only [List.length_cons] at hlen
        simp [TestAlloc.dropRun, hfin]
        omega

/-- Witness for C2: one leaked allocation, clone drop at count 2 is
silent, last drop asserts. -/
theorem testAlloc_drop_last_clone_check_witness :
    TestAlloc.dropRun 2 (finalSt [] [Event.alloc (Layout.mk 4 4) 100]) =
      DropOut.mk false false ∧
    ((TestAlloc.dropRun 1 (finalSt [] [Event.alloc (Layout.mk 4 4) 100])).asserted = true ↔
      deallocCount [Event.alloc (Layout.mk 4 4) 100] <
        succAllocCount [Event.alloc (Layout.mk 4 4) 100]) :=
  ⟨(testAlloc_drop_last_clone_check 2 _ (by decide)).2.1 (by decide),
   (testAlloc_drop_last_clone_check 2 _ (by decide)).2.2⟩

/-- Claim C3: `TestAlloc::dealloc` asserts exactly when the pointer is
null, or no record exists for the address, or the recorded layout differs
from the argument; in every other case it removes the record and then
delegates to the wrapped allocator with the same address and layout. -/
theorem testAlloc_dealloc_checks (st : TrackState) (p : Ptr) (l : Layout) :
    ((TestAlloc.dealloc st p l).asserted = true ↔
      p = 0 ∨ hmLookup st p = none ∨
        ∃ prev, hmLookup st p = some prev ∧ prev ≠ l) ∧
    ((TestAlloc.dealloc st p l).asserted = false →
      (TestAlloc.dealloc st p l).st = (hmRemove st p).2 ∧
      (TestAlloc.dealloc st p l).innerCall = some (p, l)) := by
  by_cases hp : p = 0
  · subst hp
    simp [TestAlloc.dealloc]
  · cases hrem : hmLookup st p with
    | none =>
        have h1 : (hmRemove st p).1 = none := by
          rw [hmRemove_fst]
          exact hrem
        simp [TestAlloc.dealloc, hp, h1, hrem]
    | some prev =>
        have h1 : (hmRemove st p).1 = some prev := by
          rw [hmRemove_fst]
          exact hrem
        by_cases hl : l = prev
        · subst hl
          simp [TestAlloc.dealloc, hp, h1, hrem]
        · constructor
          · simp only [TestAlloc.dealloc, if_neg hp, h1, if_neg hl]
            simp only [true_iff, hrem]
            exact Or.inr (Or.inr ⟨prev, rfl, fun e => hl e.symm⟩)
          · simp [TestAlloc.dealloc, hp, h1, hl]

/-- Witness for C3: a successful dealloc removes the record and delegates. -/
theorem testAlloc_dealloc_checks_witness :
    (TestAlloc.dealloc [(5, Layout.mk 4 4)] 5 (Layout.mk 4 4)).st =
      (hmRemove [(5, Layout.mk 4 4)] 5).2 ∧
    (TestAlloc.dealloc [(5, Layout.mk 4 4)] 5 (Layout.mk 4 4)).innerCall =
      some (5, Layout.mk 4 4) :=
  (testAlloc_dealloc_checks [(5, Layout.mk 4 4)] 5 (Layout.mk 4 4)).2 (by decide)

/-- Claim C4: `TestAlloc::alloc` returns exactly the wrapped allocator's
pointer; on a null reply it returns null leaving the tracking state
untouched and does not assert; on a non-null reply it inserts a record
mapping the pointer to the requested layout and asserts precisely when a
record for that pointer already existed. -/
theorem testAlloc_alloc_records (st : TrackState) (l : Layout) (ip : Ptr) :
    (TestAlloc.alloc st l ip).ret = ip ∧
    (ip = 0 → TestAlloc.alloc st l ip = AllocOut.mk st false 0) ∧
    (ip ≠ 0 →
      (TestAlloc.alloc st l ip).st = (hmInsert st ip l).2 ∧
      hmLookup (TestAlloc.alloc st l ip).st ip = some l ∧
      ((TestAlloc.alloc st l ip).asserted = true ↔ (hmLookup st ip).isSome = true)) := by
  refine ⟨?_, ?_, ?_⟩
  · by_cases hip : ip = 0 <;> simp [TestAlloc.alloc, hip]
  · intro hip
    subst hip
    simp [TestAlloc.alloc]
  · intro hip
    refine ⟨by simp [TestAlloc.alloc, hip], ?_, ?_⟩
    · simp [TestAlloc.alloc, hip, hmLookup_hmInsert_self]
    · simp [TestAlloc.alloc, hip, hmInsert_fst]

/-- Witness for C4: a fresh non-null reply is recorded without assert. -/
theorem testAlloc_alloc_records_witness :
    (TestAlloc.alloc [] (Layout.mk 4 4) 7).st = (hmInsert [] 7 (Layout.mk 4 4)).2 ∧
    hmLookup (TestAlloc.alloc [] (Layout.mk 4 4) 7).st 7 = some (Layout.mk 4 4) ∧
    ((TestAlloc.alloc [] (Layout.mk 4 4) 7).asserted = true ↔
      (hmLookup [] 7).isSome = true) :=
  (testAlloc_alloc_records [] (Layout.mk 4 4) 7).2.2 (by decide)

/-- Claim C10: when `TestAlloc::dealloc` is called on a tracked (non-null)
address with a layout differing from the recorded one, the record is
already removed when the mismatch assertion fires: the tracking state at
the panic is the map with the record removed (strictly shorter, so not
unchanged) and the wrapped allocator's dealloc is never invoked. -/
theorem testAlloc_dealloc_mismatch_record_removed (st : TrackState) (p : Ptr)
    (l prev : Layout) (hp : p ≠ 0) (h : hmLookup st p = some prev) (hne : prev ≠ l) :
    (TestAlloc.dealloc st p l).asserted = true ∧
    (TestAlloc.dealloc st p l).st = (hmRemove st p).2 ∧
    (TestAlloc.dealloc st p l).st.length + 1 = st.length ∧
    (TestAlloc.dealloc st p l).st ≠ st ∧
    (TestAlloc.dealloc st p l).innerCall = none := by
  have h1 : (hmRemove st p).1 = some prev := by
    rw [hmRemove_fst]
    exact h
  have hl : ¬l = prev := fun e => hne e.symm
  have hlen := hmRemove_length st p prev h
  have hst : (TestAlloc.dealloc st p l).st = (hmRemove st p).2 := by
    simp [TestAlloc.dealloc, hp, h1, hl]
  refine ⟨by simp [TestAlloc.dealloc, hp, h1, hl], hst, ?_, ?_,
    by simp [TestAlloc.dealloc, hp, h1, hl]⟩
  · rw [hst]
    exact hlen
  · rw [hst]
    intro he
    rw [he] at hlen
    omega

/-- Witness for C10 at a concrete mismatched dealloc. -/
theorem testAlloc_dealloc_mismatch_record_removed_witness :
    (TestAlloc.dealloc [(5, Layout.mk 4 4)] 5 (Layout.mk 8 8)).asserted = true ∧
    (TestAlloc.dealloc [(5, Layout.mk 4 4)] 5 (Layout.mk 8 8)).st =
      (hmRemove [(5, Layout.mk 4 4)] 5).2 ∧
    (TestAlloc.dealloc [(5, Layout.mk 4 4)] 5 (Layout.mk 8 8)).st.length + 1 =
      List.length [((5 : Ptr), Layout.mk 4 4)] ∧
    (TestAlloc.dealloc [(5, Layout.mk 4 4)] 5 (Layout.mk 8 8)).st ≠
      [(5, Layout.mk 4 4)] ∧
    (TestAlloc.dealloc [(5, Layout.mk 4 4)] 5 (Layout.mk 8 8)).innerCall = none :=
  testAlloc_dealloc_mismatch_record_removed [(5, Layout.mk 4 4)] 5
    (Layout.mk 8 8) (Layout.mk 4 4) (by decide) (by decide) (by decide)

/-- Result of `MaybeAlloc::alloc`: the returned pointer and whether the
inner allocator was invoked. -/
structure MaybeAllocOut where
  ret : Ptr
  innerCalled : Bool
deriving DecidableEq, Repr

/-- `MaybeAlloc::alloc` (src/alloc.rs lines 249-255): draw a random byte
(an explicit input of the model); when it is divisible by 16, return null
without touching the inner allocator; otherwise return the inner
allocator's reply for the same layout unchanged. -/
def MaybeAlloc.alloc (inner : Layout → Ptr) (randomByte : Nat) (layout : Layout) :
    MaybeAllocOut :=
  if randomByte % 16 = 0 then
    { ret := 0, innerCalled := false }
  else
    { ret := inner layout, innerCalled := true }

/-- Result of `MaybeAlloc::dealloc`: whether the assertion fired and the
arguments of the delegated call, when it happened. -/
structure MaybeDeallocOut where
  asserted : Bool
  innerCall : Option (Ptr × Layout)
deriving DecidableEq, Repr

/-- `MaybeAlloc::dealloc` (src/alloc.rs lines 257-260): assert the pointer
is non-null, then delegate to the inner allocator unchanged. -/
def MaybeAlloc.dealloc (p : Ptr) (layout : Layout) : MaybeDeallocOut :=
  if p = 0 then
    { asserted := true, innerCall := none }
  else
    { asserted := false, innerCall := some (p, layout) }

/-- Claim C9: `MaybeAlloc::alloc` returns the null sentinel without
invoking the inner allocator exactly when the drawn byte modulo 16 is
zero, and otherwise returns the inner allocator's reply for the same
layout unchanged; `MaybeAlloc::dealloc` asserts on a null address and
otherwise delegates with the same address and layout. -/
theorem maybeAlloc_fail_injection (inner : Layout → Ptr) (b : Nat)
    (l : Layout) (p : Ptr) :
    (b % 16 = 0 → MaybeAlloc.alloc inner b l = MaybeAllocOut.mk 0 false) ∧
    (b % 16 ≠ 0 → MaybeAlloc.alloc inner b l = MaybeAllocOut.mk (inner l) true) ∧
    (p = 0 → MaybeAlloc.dealloc p l = MaybeDeallocOut.mk true none) ∧
    (p ≠ 0 → MaybeAlloc.dealloc p l = MaybeDeallocOut.mk false (some (p, l))) := by
  refine ⟨?_, ?_, ?_, ?_⟩ <;> intro h <;>
    simp [MaybeAlloc.alloc, MaybeAlloc.dealloc, h]

/-- Witness for C9 at concrete bytes and addresses. -/
theorem maybeAlloc_fail_injection_witness :
    MaybeAlloc.alloc (fun _ => 42) 16 (Layout.mk 4 4) = MaybeAllocOut.mk 0 false ∧
    MaybeAlloc.alloc (fun _ => 42) 3 (Layout.mk 4 4) = MaybeAllocOut.mk 42 true ∧
    MaybeAlloc.dealloc 0 (Layout.mk 4 4) = MaybeDeallocOut.mk true none ∧
    MaybeAlloc.dealloc 9 (Layout.mk 4 4) =
      MaybeDeallocOut.mk false (some (9, Layout.mk 4 4)) :=
  ⟨(maybeAlloc_fail_injection (fun _ => 42) 16 (Layout.mk 4 4) 0).1 (by decide),
   (maybeAlloc_fail_injection (fun _ => 42) 3 (Layout.mk 4 4) 0).2.1 (by decide),
   (maybeAlloc_fail_injection (fun _ => 42) 16 (Layout.mk 4 4) 0).2.2.1 rfl,
   (maybeAlloc_fail_injection (fun _ => 42) 16 (Layout.mk 4 4) 9).2.2.2 (by decide)⟩

/-- The world a `TestBox` operates in: the paired tracking allocator's
ledger, the contents of initialised heap storage, and the number of `T`
destructors run so far (`drop_in_place` calls). -/
structure BoxWorld (T : Type) where
  track : TrackState
  heap : List (Ptr × T)
  drops : Nat
deriving DecidableEq, Repr

/-- Contents of initialised storage at an address (dereference). -/
def heapLookup {T : Type} : List (Ptr × T) → Ptr → Option T
  | [], _ => none
  | (k, v) :: t, p => if k = p then some v else heapLookup t p

/-- `ptr.write(x)`: overwrite the storage at `p` without reading (and so
without dropping) any previous contents. -/
def heapWrite {T : Type} : List (Ptr × T) → Ptr → T → List (Ptr × T)
  | [], p, x => [(p, x)]
  | (k, v) :: t, p, x => if k = p then (p, x) :: t else (k, v) :: heapWrite t p x

/-- Storage becomes uninitialised once its value is destructed. -/
def heapErase {T : Type} : List (Ptr × T) → Ptr → List (Ptr × T)
  | [], _ => []
  | (k, v) :: t, p => if k = p then t else (k, v) :: heapErase t p

/-- A `TestBox<T, A>`: the possibly-null owned address. The allocator the
Rust struct carries by value is the ambient tracking allocator of the
`BoxWorld` (all handles of one world share one ledger, as clones of one
`TestAlloc` do). -/
structure TestBox (T : Type) where
  ptr : Ptr
deriving DecidableEq, Repr

/-- Outcome of `TestBox::new`: a tracking assertion, an abort through
`handle_alloc_error` with the offending layout, or success. -/
inductive NewOut (T : Type) where
  | assertFail
  | oomAbort (layout : Layout)
  | ok (w : BoxWorld T) (tb : TestBox T)
deriving DecidableEq, Repr

/-- `TestBox::new` (src/boxed.rs lines 132-141): compute
`Layout::new::<T>()` (the model parameter `lT`, a fixed function of `T`),
request an allocation (the wrapped allocator's reply is `ip`); on a null
result call `handle_alloc_error(layout)`; otherwise `ptr.write(x)` into
the fresh storage and return the handle holding the address. -/
def TestBox.new {T : Type} (lT : Layout) (x : T) (w : BoxWorld T) (ip : Ptr) : NewOut T :=
  let out := TestAlloc.alloc w.track lT ip
  if out.asserted then NewOut.assertFail
  else if out.ret = 0 then NewOut.oomAbort lT
  else NewOut.ok ⟨out.st, heapWrite w.heap out.ret x, w.drops⟩ ⟨out.ret⟩

/-- Outcome of `Drop for TestBox`: the world afterwards, whether a
tracking assertion fired, and the `dealloc` calls issued to the paired
allocator by this drop. -/
structure BoxDropOut (T : Type) where
  w : BoxWorld T
  asserted : Bool
  deallocCalls : List (Ptr × Layout)
deriving DecidableEq, Repr

/-- `Drop for TestBox` (src/boxed.rs lines 188-203): a null handle does
nothing; otherwise run the value's destructor in place
(`drop_in_place`), then deallocate through the paired allocator with
`Layout::new::<T>()` recomputed from `T`. -/
def TestBox.drop {T : Type} (lT : Layout) (w : BoxWorld T) (tb : TestBox T) : BoxDropOut T :=
  if tb.ptr = 0 then
    { w := w, asserted := false, deallocCalls := [] }
  else
    let out := TestAlloc.dealloc w.track tb.ptr lT
    { w := { track := out.st, heap := heapErase w.heap tb.ptr, drops := w.drops + 1 },
      asserted := out.asserted,
      deallocCalls := [(tb.ptr, lT)] }

/-- `TestBox::leak` (src/boxed.rs lines 281-289): null the handle's
pointer and hand back the previous address (as a `&mut T` with extended
lifetime in Rust). The pair is the consumed handle as the destructor will
see it, together with the escaped address. -/
def TestBox.leak {T : Type} (tb : TestBox T) : TestBox T × Ptr :=
  (⟨0⟩, tb.ptr)

/-- `TestBox::into_raw` (src/boxed.rs lines 306-310): the same ownership
transfer, returning the raw address itself. -/
def TestBox.intoRaw {T : Type} (tb : TestBox T) : TestBox T × Ptr :=
  (⟨0⟩, tb.ptr)

/-- `TestBox::from_raw_alloc` (src/boxed.rs lines 173-175): adopt an
already-allocated, already-initialised address as an owning handle. -/
def TestBox.fromRawAlloc {T : Type} (p : Ptr) : TestBox T :=
  ⟨p⟩

/-- `PartialEq for TestBox` (src/boxed.rs lines 205-215): dereference both
handles and compare the pointees; `none` models the undefined dereference
of a pointer to uninitialised storage. -/
def TestBox.beq {T : Type} [DecidableEq T] (w : BoxWorld T) (a b : TestBox T) :
    Option Bool :=
  match heapLookup w.heap a.ptr, heapLookup w.heap b.ptr with
  | some va, some vb => some (decide (va = vb))
  | _, _ => none

theorem heapLookup_heapWrite_self {T : Type} : ∀ (h : List (Ptr × T)) (p : Ptr) (x : T),
    heapLookup (heapWrite h p x) p = some x
  | [], p, x => by simp [heapWrite, heapLookup]
  | (k, v) :: t, p, x => by
      by_cases hk : k = p
      · simp [heapWrite, heapLookup, hk]
      · simp [heapWrite, heapLookup, hk, heapLookup_heapWrite_self t p x]

/-- Claim C5: `TestBox::new` computes the layout of `T` and requests an
allocation; a null reply aborts through `handle_alloc_error` with that
layout, not a recoverable value; on success (fresh non-null address) the
value is written into the new storage, no destructor runs (the drop count
is unchanged), and the returned handle holds the allocated address. -/
theorem testBox_new_oom_or_write {T : Type} (lT : Layout) (x : T)
    (w : BoxWorld T) (ip : Ptr) :
    (ip = 0 → TestBox.new lT x w ip = NewOut.oomAbort lT) ∧
    (ip ≠ 0 → hmLookup w.track ip = none →
      TestBox.new lT x w ip =
        NewOut.ok (BoxWorld.mk (hmInsert w.track ip lT).2 (heapWrite w.heap ip x) w.drops)
          (TestBox.mk ip) ∧
      heapLookup (heapWrite w.heap ip x) ip = some x) := by
  constructor
  · intro h
    subst h
    simp [TestBox.new, TestAlloc.alloc]
  · intro hip hfresh
    have hprev : (hmInsert w.track ip lT).1 = none := by
      rw [hmInsert_fst]
      exact hfresh
    exact ⟨by simp [TestBox.new, TestAlloc.alloc, hip, hprev],
      heapLookup_heapWrite_self w.heap ip x⟩

/-- Witness for C5: the out-of-memory path and a concrete success. -/
theorem testBox_new_oom_or_write_witness :
    TestBox.new (Layout.mk 8 8) (42 : Nat) (BoxWorld.mk [] [] 0) 0 =
      NewOut.oomAbort (Layout.mk 8 8) ∧
    TestBox.new (Layout.mk 8 8) (42 : Nat) (BoxWorld.mk [] [] 0) 100 =
      NewOut.ok (BoxWorld.mk (hmInsert [] 100 (Layout.mk 8 8)).2
        (heapWrite [] 100 42) 0) (TestBox.mk 100) :=
  ⟨(testBox_new_oom_or_write (Layout.mk 8 8) 42 (BoxWorld.mk [] [] 0) 0).1 rfl,
   ((testBox_new_oom_or_write (Layout.mk 8 8) 42 (BoxWorld.mk [] [] 0) 100).2
     (by decide) rfl).1⟩

/-- Claim C6: `TestBox::new` with a fresh non-null address followed by a
normal drop runs the value's destructor exactly once, issues exactly one
`dealloc` call with the allocated address and the layout recomputed from
`T` (the same layout used at allocation), fires no assertion, and returns
the tracking ledger to its prior value; an initially clean allocator then
tears down without a leak report. -/
theorem testBox_new_drop_roundtrip {T : Type} (lT : Layout) (x : T)
    (w : BoxWorld T) (ip : Ptr) (hip : ip ≠ 0) (hfresh : hmLookup w.track ip = none) :
    TestBox.new lT x w ip =
      NewOut.ok (BoxWorld.mk (hmInsert w.track ip lT).2 (heapWrite w.heap ip x) w.drops)
        (TestBox.mk ip) ∧
    (TestBox.drop lT
        (BoxWorld.mk (hmInsert w.track ip lT).2 (heapWrite w.heap ip x) w.drops)
        (TestBox.mk ip)).asserted = false ∧
    (TestBox.drop lT
        (BoxWorld.mk (hmInsert w.track ip lT).2 (heapWrite w.heap ip x) w.drops)
        (TestBox.mk ip)).deallocCalls = [(ip, lT)] ∧
    (TestBox.drop lT
        (BoxWorld.mk (hmInsert w.track ip lT).2 (heapWrite w.heap ip x) w.drops)
        (TestBox.mk ip)).w.drops = w.drops + 1 ∧
    (TestBox.drop lT
        (BoxWorld.mk (hmInsert w.track ip lT).2 (heapWrite w.heap ip x) w.drops)
        (TestBox.mk ip)).w.track = w.track ∧
    (w.track = [] →
      (TestAlloc.dropRun 1
        (TestBox.drop lT
          (BoxWorld.mk (hmInsert w.track ip lT).2 (heapWrite w.heap ip x) w.drops)
          (TestBox.mk ip)).w.track).asserted = false) := by
  have hprev : (hmInsert w.track ip lT).1 = none := by
    rw [hmInsert_fst]
    exact hfresh
  have hrr := hmRemove_hmInsert w.track ip lT hfresh
  refine ⟨by simp [TestBox.new, TestAlloc.alloc, hip, hprev], ?_, ?_, ?_, ?_, ?_⟩
  · simp [TestBox.drop, TestAlloc.dealloc, hip, hrr]
  · simp [TestBox.drop, hip]
  · simp [TestBox.drop, hip]
  · simp [TestBox.drop, TestAlloc.dealloc, hip, hrr]
  · intro hw
    have htr : (TestBox.drop lT
        (BoxWorld.mk (hmInsert w.track ip lT).2 (heapWrite w.heap ip x) w.drops)
        (TestBox.mk ip)).w.track = w.track := by
      simp [TestBox.drop, TestAlloc.dealloc, hip, hrr]
    rw [htr, hw]
    simp [TestAlloc.dropRun]

/-- Witness for C6 at a concrete value and address. -/
theorem testBox_new_drop_roundtrip_witness :
    TestBox.new (Layout.mk 8 8) (42 : Nat) (BoxWorld.mk [] [] 0) 100 =
      NewOut.ok (BoxWorld.mk (hmInsert [] 100 (Layout.mk 8 8)).2
        (heapWrite [] 100 42) 0) (TestBox.mk 100) ∧
    (TestBox.drop (Layout.mk 8 8)
        (BoxWorld.mk (hmInsert [] 100 (Layout.mk 8 8)).2 (heapWrite [] 100 42) 0)
        (TestBox.mk 100)).asserted = false ∧
    (TestBox.drop (Layout.mk 8 8)
        (BoxWorld.mk (hmInsert [] 100 (Layout.mk 8 8)).2 (heapWrite [] 100 42) 0)
        (TestBox.mk 100)).deallocCalls = [(100, Layout.mk 8 8)] ∧
    (TestBox.drop (Layout.mk 8 8)
        (BoxWorld.mk (hmInsert [] 100 (Layout.mk 8 8)).2 (heapWrite [] 100 42) 0)
        (TestBox.mk 100)).w.drops = 0 + 1 ∧
    (TestBox.drop (Layout.mk 8 8)
        (BoxWorld.mk (hmInsert [] 100 (Layout.mk 8 8)).2 (heapWrite [] 100 42) 0)
        (TestBox.mk 100)).w.track = [] ∧
    (([] : TrackState) = [] →
      (TestAlloc.dropRun 1
        (TestBox.drop (Layout.mk 8 8)
          (BoxWorld.mk (hmInsert [] 100 (Layout.mk 8 8)).2 (heapWrite [] 100 42) 0)
          (TestBox.mk 100)).w.track).asserted = false) :=
  testBox_new_drop_roundtrip (Layout.mk 8 8) 42 (BoxWorld.mk [] [] 0) 100
    (by decide) rfl

/-- Claim C7: `leak` and `into_raw` both null the handle's internal
pointer and return the previous address, so dropping the consumed handle
frees nothing; re-adopting the escaped address of a freshly created box
via `from_raw_alloc` and dropping the adopted handle normally restores the
tracking ledger, so an initially clean allocator tears down cleanly. -/
theorem testBox_leak_readopt_clean {T : Type} (lT : Layout) (x : T)
    (w : BoxWorld T) (ip : Ptr) (tb : TestBox T)
    (hip : ip ≠ 0) (hfresh : hmLookup w.track ip = none) :
    TestBox.leak tb = (TestBox.mk 0, tb.ptr) ∧
    TestBox.intoRaw tb = (TestBox.mk 0, tb.ptr) ∧
    (∀ w2 : BoxWorld T, TestBox.drop lT w2 (TestBox.mk 0) = BoxDropOut.mk w2 false []) ∧
    TestBox.new lT x w ip =
      NewOut.ok (BoxWorld.mk (hmInsert w.track ip lT).2 (heapWrite w.heap ip x) w.drops)
        (TestBox.mk ip) ∧
    (TestBox.drop lT
        (BoxWorld.mk (hmInsert w.track ip lT).2 (heapWrite w.heap ip x) w.drops)
        (TestBox.fromRawAlloc (TestBox.leak (TestBox.mk ip : TestBox T)).2)).asserted = false ∧
    (TestBox.drop lT
        (BoxWorld.mk (hmInsert w.track ip lT).2 (heapWrite w.heap ip x) w.drops)
        (TestBox.fromRawAlloc (TestBox.leak (TestBox.mk ip : TestBox T)).2)).w.track = w.track ∧
    (w.track = [] →
      (TestAlloc.dropRun 1
        (TestBox.drop lT
          (BoxWorld.mk (hmInsert w.track ip lT).2 (heapWrite w.heap ip x) w.drops)
          (TestBox.fromRawAlloc (TestBox.leak (TestBox.mk ip : TestBox T)).2)).w.track).asserted
        = false) := by
  have hprev : (hmInsert w.track ip lT).1 = none := by
    rw [hmInsert_fst]
    exact hfresh
  have hrr := hmRemove_hmInsert w.track ip lT hfresh
  have htr : (TestBox.drop lT
      (BoxWorld.mk (hmInsert w.track ip lT).2 (heapWrite w.heap ip x) w.drops)
      (TestBox.fromRawAlloc (TestBox.leak (TestBox.mk ip : TestBox T)).2)).w.track = w.track := by
    simp [TestBox.drop, TestBox.fromRawAlloc, TestBox.leak, TestAlloc.dealloc, hip, hrr]
  refine ⟨rfl, rfl, ?_, by simp [TestBox.new, TestAlloc.alloc, hip, hprev], ?_, htr, ?_⟩
  · intro w2
    simp [TestBox.drop]
  · simp [TestBox.drop, TestBox.fromRawAlloc, TestBox.leak, TestAlloc.dealloc, hip, hrr]
  · intro hw
    rw [htr, hw]
    simp [TestAlloc.dropRun]

/-- Witness for C7 at concrete handles and worlds. -/
theorem testBox_leak_readopt_clean_witness :
    TestBox.leak (TestBox.mk 7 : TestBox Nat) = (TestBox.mk 0, 7) ∧
    TestBox.intoRaw (TestBox.mk 7 : TestBox Nat) = (TestBox.mk 0, 7) ∧
    TestBox.drop (Layout.mk 8 8) (BoxWorld.mk [(3, Layout.mk 8 8)] [] 5)
        (TestBox.mk 0 : TestBox Nat) =
      BoxDropOut.mk (BoxWorld.mk [(3, Layout.mk 8 8)] [] 5) false [] ∧
    (TestBox.drop (Layout.mk 8 8)
        (BoxWorld.mk (hmInsert [] 100 (Layout.mk 8 8)).2 (heapWrite [] 100 (42 : Nat)) 0)
        (TestBox.fromRawAlloc (TestBox.leak (TestBox.mk 100 : TestBox Nat)).2)).asserted = false :=
  ⟨(testBox_leak_readopt_clean (Layout.mk 8 8) (42 : Nat) (BoxWorld.mk [] [] 0) 100
      (TestBox.mk 7) (by decide) rfl).1,
   (testBox_leak_readopt_clean (Layout.mk 8 8) (42 : Nat) (BoxWorld.mk [] [] 0) 100
      (TestBox.mk 7) (by decide) rfl).2.1,
   (testBox_leak_readopt_clean (Layout.mk 8 8) (42 : Nat) (BoxWorld.mk [] [] 0) 100
      (TestBox.mk 7) (by decide) rfl).2.2.1 (BoxWorld.mk [(3, Layout.mk 8 8)] [] 5),
   (testBox_leak_readopt_clean (Layout.mk 8 8) (42 : Nat) (BoxWorld.mk [] [] 0) 100
      (TestBox.mk 7) (by decide) rfl).2.2.2.2.1⟩

/-- Claim C8: two `TestBox` handles compare equal exactly when their
pointees compare equal; the addresses held and the ambient allocator play
no role (the handles and their addresses are arbitrary). -/
theorem testBox_eq_delegates_to_pointee {T : Type} [DecidableEq T]
    (w : BoxWorld T) (a b : TestBox T) (va vb : T)
    (ha : heapLookup w.heap a.ptr = some va)
    (hb : heapLookup w.heap b.ptr = some vb) :
    (TestBox.beq w a b = some true ↔ va = vb) ∧
    (TestBox.beq w a b = some false ↔ ¬va = vb) := by
  simp [TestBox.beq, ha, hb]

/-- Witness for C8: equal pointees at different addresses compare equal. -/
theorem testBox_eq_delegates_to_pointee_witness :
    (TestBox.beq (BoxWorld.mk [] [(3, (10 : Nat)), (9, 10)] 0)
        (TestBox.mk 3) (TestBox.mk 9) = some true ↔ (10 : Nat) = 10) ∧
    (TestBox.beq (BoxWorld.mk [] [(3, (10 : Nat)), (9, 10)] 0)
        (TestBox.mk 3) (TestBox.mk 9) = some false ↔ ¬(10 : Nat) = 10) :=
  testBox_eq_delegates_to_pointee (BoxWorld.mk [] [(3, 10), (9, 10)] 0)
    (TestBox.mk 3) (TestBox.mk 9) 10 10 (by decide) (by decide)
